import Mathlib

/-! Verification of the norm-reduction stack for complex side/edge-centered
AMR patch data (SAMRAI): the directional-array reduction kernels of the
class PatchSideDataNormOpsComplex and the concrete two-level edge-centered
scenario exercised by the dataops test edge_cplxtest.cpp.

The repository sources at hand are the interface header
source/SAMRAI/math/PatchSideDataNormOpsComplex.h, whose doc comments state
the exact formula of each operation, and the test
source/test/dataops/edge_cplxtest.cpp, which fixes a concrete two-level
two-dimensional hierarchy together with the expected values of the
reductions.  The implementation bodies (ArrayDataNormOpsComplex and the
hierarchy/patch operator classes) are not among the sources, so the
reduction kernels below are modelled from the specification, whose formulas
coincide with the doc comments of the header; the concrete scenario is
translated directly from the test. -/

/-- Modelled from the spec: one directional-array entry, holding the complex
data value and the nonnegative control-volume weight stored at the same
location.  The implementation file ArrayDataNormOpsComplex.cpp is not among
the sources; entry lists stand for the (box-restricted) dense arrays of
section 4.1 of the specification. -/
structure WEntry where
  val : ℂ
  cvol : ℝ

/-- Modelled from the spec: one location of two complex fields combined by
the dot product, with the control volume at that location. -/
structure DotEntry where
  fst : ℂ
  snd : ℂ
  cvol : ℝ

/-- Modelled from the spec: one location of a data field and a weight field
for the weighted L2 norm, with the control volume at that location. -/
structure WgtEntry where
  val : ℂ
  wgt : ℂ
  cvol : ℝ

/-- Modelled from the spec: the fatal error conditions of section 7 that the
modelled operations can detect. -/
inductive NormError where
  | divisionByZero
  | directionVectorMismatch
  | depthMismatch
deriving DecidableEq

/-- numberOfEntries: the count of valid locations of the restricted array
(section 4.1; depth is treated in the depth model further below). -/
def numberOfEntries (l : List ℂ) : ℕ := l.length

/-- Modelled from the spec: sum of the control volume entries. -/
noncomputable def sumControlVolumes (l : List WEntry) : ℝ :=
  (l.map WEntry.cvol).sum

/-- Modelled from the spec: discrete L1 norm without a control volume,
the sum of the complex magnitudes. -/
noncomputable def L1Norm (l : List ℂ) : ℝ :=
  (l.map Complex.abs).sum

/-- Modelled from the spec: discrete L1 norm weighted by the control
volume, the sum of magnitude times control volume. -/
noncomputable def L1NormW (l : List WEntry) : ℝ :=
  (l.map fun e => Complex.abs e.val * e.cvol).sum

/-- Modelled from the spec: discrete L2 norm without a control volume,
the square root of the sum of the data times its conjugate. -/
noncomputable def L2Norm (l : List ℂ) : ℝ :=
  Real.sqrt ((l.map Complex.normSq).sum)

/-- Modelled from the spec: discrete L2 norm weighted by the control
volume. -/
noncomputable def L2NormW (l : List WEntry) : ℝ :=
  Real.sqrt ((l.map fun e => Complex.normSq e.val * e.cvol).sum)

/-- Modelled from the spec: weighted L2 norm without a control volume,
over pairs of data value and weight value at the same location. -/
noncomputable def weightedL2Norm (l : List (ℂ × ℂ)) : ℝ :=
  Real.sqrt ((l.map fun p => Complex.normSq (p.1 * p.2)).sum)

/-- Modelled from the spec: weighted L2 norm with a control volume. -/
noncomputable def weightedL2NormW (l : List WgtEntry) : ℝ :=
  Real.sqrt ((l.map fun e => Complex.normSq (e.val * e.wgt) * e.cvol).sum)

/-- Modelled from the spec: root mean squared norm without a control
volume, the L2 norm divided by the square root of the entry count; a zero
entry count is the DivisionByZero condition of section 7 and is detected
before any value is produced. -/
noncomputable def RMSNorm (l : List ℂ) : Except NormError ℝ :=
  if numberOfEntries l = 0 then Except.error NormError.divisionByZero
  else Except.ok (L2Norm l / Real.sqrt (numberOfEntries l))

/-- Modelled from the spec: root mean squared norm with a control volume,
the L2 norm divided by the square root of the control-volume sum; a zero
total weight is the DivisionByZero condition of section 7. -/
noncomputable def RMSNormW (l : List WEntry) : Except NormError ℝ :=
  if sumControlVolumes l = 0 then Except.error NormError.divisionByZero
  else Except.ok (L2NormW l / Real.sqrt (sumControlVolumes l))

/-- Modelled from the spec: weighted root mean squared norm without a
control volume. -/
noncomputable def weightedRMSNorm (l : List (ℂ × ℂ)) : Except NormError ℝ :=
  if l.length = 0 then Except.error NormError.divisionByZero
  else Except.ok (weightedL2Norm l / Real.sqrt (l.length))

/-- Modelled from the spec: weighted root mean squared norm with a control
volume. -/
noncomputable def weightedRMSNormW (l : List WgtEntry) : Except NormError ℝ :=
  if (l.map WgtEntry.cvol).sum = 0 then Except.error NormError.divisionByZero
  else Except.ok (weightedL2NormW l / Real.sqrt ((l.map WgtEntry.cvol).sum))

/-- Modelled from the spec: max norm without a control volume, the maximum
of the complex magnitudes, 0 when no entries exist. -/
noncomputable def maxNorm (l : List ℂ) : ℝ :=
  (l.map Complex.abs).foldr max 0

/-- Modelled from the spec: max norm weighted by the control volume: the
maximum magnitude over the entries whose control volume is strictly
positive; entries with a zero control volume are excluded entirely. -/
noncomputable def maxNormW (l : List WEntry) : ℝ :=
  l.foldr (fun e m => if 0 < e.cvol then max (Complex.abs e.val) m else m) 0

/-- Modelled from the spec: dot product with a control volume, the sum of
the first datum times the conjugate of the second times the control
volume. -/
noncomputable def dotW (l : List DotEntry) : ℂ :=
  (l.map fun e => e.fst * (starRingEnd ℂ) e.snd * (e.cvol : ℂ)).sum

/-- Swapping the two data fields of a dot-product entry. -/
def DotEntry.swap (e : DotEntry) : DotEntry :=
  ⟨e.snd, e.fst, e.cvol⟩

/-- Modelled from the spec: the integral, the plain (unconjugated) sum of
data times volume. -/
noncomputable def integral (l : List WEntry) : ℂ :=
  (l.map fun e => e.val * (e.cvol : ℂ)).sum

/-- An axis-aligned integer rectangle of dimension 2, the cell-centered
index box of hier::Box in the two-dimensional test scenario. -/
structure Box2 where
  xlo : ℤ
  xhi : ℤ
  ylo : ℤ
  yhi : ℤ
deriving DecidableEq

/-- Intersection of two boxes, componentwise max of lower and min of upper
corners. -/
def Box2.inter (a b : Box2) : Box2 :=
  ⟨max a.xlo b.xlo, min a.xhi b.xhi, max a.ylo b.ylo, min a.yhi b.yhi⟩

/-- A box is empty when an upper corner lies below the lower corner. -/
def Box2.isEmpty (b : Box2) : Bool :=
  b.xhi < b.xlo || b.yhi < b.ylo

/-- Membership of an index pair in a box. -/
def Box2.contains (b : Box2) (i j : ℤ) : Bool :=
  b.xlo ≤ i && i ≤ b.xhi && b.ylo ≤ j && j ≤ b.yhi

/-- The closed integer interval from lo to hi as a list. -/
def intRange (lo hi : ℤ) : List ℤ :=
  (List.range (hi + 1 - lo).toNat).map fun k => lo + k

/-- All index pairs of a box, row by row. -/
def Box2.cells (b : Box2) : List (ℤ × ℤ) :=
  (intRange b.xlo b.xhi).flatMap fun i =>
    (intRange b.ylo b.yhi).map fun j => (i, j)

/-- The bounding box of two boxes (the + operator of hier::Box used by the
test to combine the two fine boxes). -/
def Box2.bound (a b : Box2) : Box2 :=
  ⟨min a.xlo b.xlo, max a.xhi b.xhi, min a.ylo b.ylo, max a.yhi b.yhi⟩

/-- Coarsening a box by ratio 2 in both directions (floor division, all
scenario corners are nonnegative). -/
def Box2.coarsen2 (b : Box2) : Box2 :=
  ⟨b.xlo / 2, b.xhi / 2, b.ylo / 2, b.yhi / 2⟩

/-- The two edge axes of a two-dimensional edge-centered field. -/
inductive Axis where
  | X
  | Y
deriving DecidableEq

/-- The edge-index box of a cell box for one axis: the cell box grown
upward by one in the transverse direction (pdat::EdgeGeometry::toEdgeBox
in dimension 2). -/
def edgeBox (b : Box2) : Axis → Box2
  | Axis.X => ⟨b.xlo, b.xhi, b.ylo, b.yhi + 1⟩
  | Axis.Y => ⟨b.xlo, b.xhi + 1, b.ylo, b.yhi⟩

/-- Componentwise minimum of two direction vectors
(hier::IntVector::min). -/
def dirVecMin (a b : List ℤ) : List ℤ :=
  List.zipWith min a b

/-- Modelled from the spec: the precondition of the control-volume
operations, that the direction vector of the data equals the componentwise
minimum of the direction vectors of the data and of the control volume. -/
def dirVecOk (dat cv : List ℤ) : Bool :=
  dat == dirVecMin dat cv

/-- Modelled from the spec: a patch operation guarded by the direction
vector precondition; a violation is diagnosed as the fatal
DirectionVectorMismatch condition before any partial result is
produced. -/
def guardedOp {α β : Type} (res : α → β) (dvData dvCvol : List ℤ) (l : α) :
    Except NormError β :=
  if dirVecOk dvData dvCvol then Except.ok (res l)
  else Except.error NormError.directionVectorMismatch

/-- Modelled from the spec: guarded sumControlVolumes. -/
noncomputable def sumControlVolumesOp :=
  guardedOp sumControlVolumes

/-- Modelled from the spec: guarded weighted L1 norm. -/
noncomputable def L1NormOp :=
  guardedOp L1NormW

/-- Modelled from the spec: guarded weighted L2 norm. -/
noncomputable def L2NormOp :=
  guardedOp L2NormW

/-- Modelled from the spec: guarded weighted L2 norm with weight field. -/
noncomputable def weightedL2NormOp :=
  guardedOp weightedL2NormW

/-- Modelled from the spec: guarded weighted max norm. -/
noncomputable def maxNormOp :=
  guardedOp maxNormW

/-- Modelled from the spec: guarded dot product. -/
noncomputable def dotOp :=
  guardedOp dotW

/-- Modelled from the spec: guarded integral. -/
noncomputable def integralOp :=
  guardedOp integral

/-- Modelled from the spec: the two events a process performs during one
hierarchy reduction call: visiting an owned patch, and taking part in the
single blocking collective reduction. -/
inductive ReduceEvent where
  | visitPatch
  | collectiveReduce
deriving DecidableEq

/-- Modelled from the spec: the event trace of one process in a hierarchy
reduction: it visits each patch it owns and then issues exactly one
collective reduction, also when it owns no patches. -/
def processEvents (owned : List ℝ) : List ReduceEvent :=
  (owned.map fun _ => ReduceEvent.visitPatch) ++ [ReduceEvent.collectiveReduce]

/-- Modelled from the spec: the locally accumulated partial of a sum-type
reduction, 0 (the identity element) for a process owning no patches. -/
noncomputable def localPartialSum (owned : List ℝ) : ℝ :=
  owned.sum

/-- Modelled from the spec: the locally accumulated partial of the
max-type reduction, 0 (the no-contribution value) for a process owning no
patches. -/
noncomputable def localPartialMax (owned : List ℝ) : ℝ :=
  owned.foldr max 0

/-- Modelled from the spec: the combined value of the blocking sum
reduction over the process group. -/
noncomputable def globalSumReduce (procs : List (List ℝ)) : ℝ :=
  (procs.map localPartialSum).sum

/-- Modelled from the spec: the combined value of the blocking max
reduction over the process group. -/
noncomputable def globalMaxReduce (procs : List (List ℝ)) : ℝ :=
  (procs.map localPartialMax).foldr max 0

/-- Modelled from the spec: what one process observes from a hierarchy
reduction call: how many collective reductions it issued and the scalar it
returns. -/
structure ProcResult where
  reduceCalls : ℕ
  value : ℝ

/-- Modelled from the spec: the SPMD run of one public hierarchy sum
reduction: every process visits its owned patches, issues its collective
calls, and returns the combined scalar of the group. -/
noncomputable def hierarchySumRun (procs : List (List ℝ)) : List ProcResult :=
  procs.map fun owned =>
    ⟨(processEvents owned).count ReduceEvent.collectiveReduce,
      globalSumReduce procs⟩

/-- Modelled from the spec: the SPMD run of one public hierarchy max
reduction. -/
noncomputable def hierarchyMaxRun (procs : List (List ℝ)) : List ProcResult :=
  procs.map fun owned =>
    ⟨(processEvents owned).count ReduceEvent.collectiveReduce,
      globalMaxReduce procs⟩

/-- A patch-data field with a component count (depth) at every location:
the value function gives component k at each location (class documentation
of PatchSideDataNormOpsComplex: the control volume depth must be either 1
or equal to the depth of the data). -/
structure DeepField (α : Type) where
  depth : ℕ
  val : ℤ → ℕ → α

/-- Modelled from the spec: the control-volume component that weights
component k of the data: with a depth-1 control volume its single
component 0 weights every data component, otherwise component k. -/
def cvolComponent (cv : DeepField ℝ) (loc : ℤ) (k : ℕ) : ℝ :=
  if cv.depth = 1 then cv.val loc 0 else cv.val loc k

/-- Modelled from the spec: the depth precondition on the control volume,
depth 1 or exactly the depth of the data. -/
def cvolDepthOk (cvDepth dataDepth : ℕ) : Bool :=
  cvDepth == 1 || cvDepth == dataDepth

/-- Modelled from the spec: the control-volume weighted L1 norm over a
list of locations of a field with depth, guarded by the depth
precondition; all components at a location count as distinct entries. -/
noncomputable def depthWeightedL1 (locs : List ℤ) (data : DeepField ℂ)
    (cv : DeepField ℝ) : Except NormError ℝ :=
  if cvolDepthOk cv.depth data.depth then
    Except.ok ((locs.map fun loc =>
      ((List.range data.depth).map fun k =>
        Complex.abs (data.val loc k) * cvolComponent cv loc k).sum).sum)
  else Except.error NormError.depthMismatch

/-- Cell box of the lower coarse patch (local id 0 of level 0) of the test
scenario. -/
def coarse0 : Box2 := ⟨0, 9, 0, 2⟩

/-- Cell box of the upper coarse patch (local id 1 of level 0). -/
def coarse1 : Box2 := ⟨0, 9, 3, 4⟩

/-- Cell box of the left fine patch (local id 0 of level 1). -/
def fine0 : Box2 := ⟨4, 7, 4, 7⟩

/-- Cell box of the right fine patch (local id 1 of level 1). -/
def fine1 : Box2 := ⟨8, 13, 4, 7⟩

/-- The fine-level footprint coarsened to level 0, as the test computes it:
the bounding box of the two fine boxes coarsened by the refinement ratio
2. -/
def coarseFine : Box2 := (fine0.bound fine1).coarsen2

/-- Edge control volume of a coarse-level cell, recorded as an integer
multiple of the unit 1/8000: the mesh-width product (1/10) times (1/10) of
the Cartesian geometry (domain extent 1 by 1/2 over 10 by 5 coarse cells)
is 1/100, which is 80 units.  The integer scaling keeps every value of the
test construction exact and decidable; the real-valued scenario quantities
divide by 8000 again. -/
def edgeVolCoarse : ℤ := 80

/-- Edge control volume of a fine-level cell in units of 1/8000: the
mesh-width product (1/20) times (1/20) is 1/400, which is 20 units. -/
def edgeVolFine : ℤ := 20

/-- One edge-centered entry of the scenario: the integer real and
imaginary parts of the data value the test stores there, and the
control-volume weight in units of 1/8000. -/
structure QEntry where
  re : ℤ
  im : ℤ
  cv : ℤ
deriving DecidableEq

/-- The squared complex magnitude of an entry, computed in ℤ. -/
def magSq (e : QEntry) : ℤ :=
  e.re * e.re + e.im * e.im

/-- Control volume on the lower coarse patch, translated from the test
loops: fill with the coarse edge volume, zero the edges of the coarsened
fine footprint, then halve the bottom X edges (j = 0) and the left and
right Y edges (i = 0 and i = 10); every halved unit count is even, so the
integer division is exact. -/
def cvolC0 (ax : Axis) (i j : ℤ) : ℤ :=
  let base : ℤ :=
    if (edgeBox (coarseFine.inter coarse0) ax).contains i j then 0
    else edgeVolCoarse
  match ax with
  | Axis.X => if j = 0 then base / 2 else base
  | Axis.Y => if i = 0 || i = 10 then base / 2 else base

/-- Control volume on the upper coarse patch: fill, zero the coarsened fine
footprint, set the bottom X edges (j = 3, shared with the lower patch) to
zero, halve the top X edges (j = 5) and the left and right Y edges. -/
def cvolC1 (ax : Axis) (i j : ℤ) : ℤ :=
  let base : ℤ :=
    if (edgeBox (coarseFine.inter coarse1) ax).contains i j then 0
    else edgeVolCoarse
  match ax with
  | Axis.X => if j = 3 then 0 else if j = 5 then base / 2 else base
  | Axis.Y => if i = 0 || i = 10 then base / 2 else base

/-- Control volume on the left fine patch: fill with the fine edge volume,
then scale the coarse-fine boundary edges by 3/2 (exact on the even unit
counts): the bottom and top X edges (j = 4 and j = 8) and the left Y edges
(i = 4). -/
def cvolF0 (ax : Axis) (i j : ℤ) : ℤ :=
  let base : ℤ := edgeVolFine
  match ax with
  | Axis.X => if j = 4 || j = 8 then 3 * base / 2 else base
  | Axis.Y => if i = 4 then 3 * base / 2 else base

/-- Control volume on the right fine patch: fill, scale the bottom and top
X edges by 3/2, zero the left Y edges (i = 8, shared with the left fine
patch) and scale the right Y edges (i = 14) by 3/2. -/
def cvolF1 (ax : Axis) (i j : ℤ) : ℤ :=
  let base : ℤ := edgeVolFine
  match ax with
  | Axis.X => if j = 4 || j = 8 then 3 * base / 2 else base
  | Axis.Y => if i = 8 then 0 else if i = 14 then 3 * base / 2 else base

/-- Data of the tested field on the lower coarse patch: (4, -3)
everywhere, with the outlier (100, -50) at the Y edge of cell (2, 2) with
the Lower side (test 13). -/
def dataC0 (ax : Axis) (i j : ℤ) : ℤ × ℤ :=
  if ax = Axis.Y ∧ i = 2 ∧ j = 2 then (100, -50) else (4, -3)

/-- Data on the upper coarse patch: (4, -3) everywhere, with the outlier
(-1000, 20) at the Y edge of cell (5, 3) with the Upper side, which is the
Y edge index (6, 3). -/
def dataC1 (ax : Axis) (i j : ℤ) : ℤ × ℤ :=
  if ax = Axis.Y ∧ i = 6 ∧ j = 3 then (-1000, 20) else (4, -3)

/-- Data on the fine patches: (4, -3) everywhere. -/
def dataFine (ax : Axis) (i j : ℤ) : ℤ × ℤ :=
  let _ := ax
  let _ := i
  let _ := j
  (4, -3)

/-- The entries of one patch for one axis: every index of the edge box of
the patch cells, with the patch data and control-volume functions. -/
def patchAxisEntries (box : Box2) (dat : Axis → ℤ → ℤ → ℤ × ℤ)
    (cv : Axis → ℤ → ℤ → ℤ) (ax : Axis) : List QEntry :=
  (edgeBox box ax).cells.map fun p =>
    ⟨(dat ax p.1 p.2).1, (dat ax p.1 p.2).2, cv ax p.1 p.2⟩

/-- All entries of one patch, the X-axis entries followed by the Y-axis
entries. -/
def patchEntries (box : Box2) (dat : Axis → ℤ → ℤ → ℤ × ℤ)
    (cv : Axis → ℤ → ℤ → ℤ) : List QEntry :=
  patchAxisEntries box dat cv Axis.X ++ patchAxisEntries box dat cv Axis.Y

/-- Every entry of the tested field over the whole two-level hierarchy:
both coarse patches followed by both fine patches, as the hierarchy
operator visits them patch by patch. -/
def allEntries : List QEntry :=
  patchEntries coarse0 dataC0 cvolC0 ++ patchEntries coarse1 dataC1 cvolC1 ++
    patchEntries fine0 dataFine cvolF0 ++ patchEntries fine1 dataFine cvolF1

/-- The X-axis entries of the lower coarse patch alone; the per-piece lists
keep every finite computation small. -/
def entC0X : List QEntry := patchAxisEntries coarse0 dataC0 cvolC0 Axis.X

/-- The Y-axis entries of the lower coarse patch. -/
def entC0Y : List QEntry := patchAxisEntries coarse0 dataC0 cvolC0 Axis.Y

/-- The X-axis entries of the upper coarse patch. -/
def entC1X : List QEntry := patchAxisEntries coarse1 dataC1 cvolC1 Axis.X

/-- The Y-axis entries of the upper coarse patch. -/
def entC1Y : List QEntry := patchAxisEntries coarse1 dataC1 cvolC1 Axis.Y

/-- The X-axis entries of the left fine patch. -/
def entF0X : List QEntry := patchAxisEntries fine0 dataFine cvolF0 Axis.X

/-- The Y-axis entries of the left fine patch. -/
def entF0Y : List QEntry := patchAxisEntries fine0 dataFine cvolF0 Axis.Y

/-- The X-axis entries of the right fine patch. -/
def entF1X : List QEntry := patchAxisEntries fine1 dataFine cvolF1 Axis.X

/-- The Y-axis entries of the right fine patch. -/
def entF1Y : List QEntry := patchAxisEntries fine1 dataFine cvolF1 Axis.Y

/-- The complex value of a scenario entry. -/
noncomputable def QEntry.toC (e : QEntry) : ℂ :=
  ⟨(e.re : ℝ), (e.im : ℝ)⟩

/-- A scenario entry as a weighted kernel entry; the integer unit count of
the control volume turns back into the exact weight by dividing by
8000. -/
noncomputable def QEntry.toW (e : QEntry) : WEntry :=
  ⟨e.toC, (e.cv : ℝ) / 8000⟩

/-- The L1 norm of the tested field over the hierarchy without a control
volume (test 14). -/
noncomputable def scenarioL1NoWeight : ℝ :=
  L1Norm (allEntries.map QEntry.toC)

/-- The L1 norm of the tested field with the control-volume weighting
(test 15). -/
noncomputable def scenarioL1Weighted : ℝ :=
  L1NormW (allEntries.map QEntry.toW)

/-- The max norm of the tested field without a control volume (test
17). -/
noncomputable def scenarioMaxNoWeight : ℝ :=
  maxNorm (allEntries.map QEntry.toC)

/-- The sum of the control volumes over the hierarchy (test 1b). -/
noncomputable def scenarioSumCvol : ℝ :=
  sumControlVolumes (allEntries.map QEntry.toW)

/-- The number of distinct locations of a union of boxes: the locations of
the bounding box of the union that lie in at least one of the boxes (every
location of every box lies in the bounding box, and each is counted
once). -/
def unionCount (eboxes : List Box2) : ℕ :=
  match eboxes with
  | [] => 0
  | b :: t =>
    ((t.foldl Box2.bound b).cells).countP fun p =>
      (b :: t).any fun eb => eb.contains p.1 p.2

/-- Modelled from the spec: the hierarchy-level numberOfEntries of one
level counts, per axis, the logically distinct edge locations of the union
of the edge boxes of the patches of that level (section 4.2: a logical
count of independent degrees of freedom, an edge shared by adjacent
patches counted once). -/
def levelEntryCount (patchBoxes : List Box2) : ℕ :=
  unionCount (patchBoxes.map fun b => edgeBox b Axis.X) +
    unionCount (patchBoxes.map fun b => edgeBox b Axis.Y)

/-- The numberOfEntries of the whole two-level hierarchy of the scenario
(test 2). -/
def scenarioNumberOfEntries : ℕ :=
  levelEntryCount [coarse0, coarse1] + levelEntryCount [fine0, fine1]

/-- A restriction box disjoint from the storage box below, for witnessing
the empty-intersection behavior. -/
def emptyBoxA : Box2 := ⟨0, 1, 0, 1⟩

/-- A storage box disjoint from the restriction box above. -/
def emptyBoxB : Box2 := ⟨5, 9, 0, 1⟩

/-- A constant weighted-entry field for witnessing. -/
noncomputable def wconst : ℤ × ℤ → WEntry := fun _ => ⟨1, 1⟩

/-- A constant dot-product-entry field for witnessing. -/
noncomputable def dconst : ℤ × ℤ → DotEntry := fun _ => ⟨1, 1, 1⟩

/-- A constant weight-entry field for witnessing. -/
noncomputable def gconst : ℤ × ℤ → WgtEntry := fun _ => ⟨1, 1, 1⟩

theorem list_foldr_max_nonneg (l : List ℝ) : 0 ≤ l.foldr max 0 := by
  induction l with
  | nil => simp
  | cons a t ih => exact le_trans ih (le_max_right a _)

theorem list_foldr_max_le (l : List ℝ) (m : ℝ) (h0 : 0 ≤ m)
    (hle : ∀ x ∈ l, x ≤ m) : l.foldr max 0 ≤ m := by
  induction l with
  | nil => simpa using h0
  | cons a t ih =>
    simp only [List.foldr_cons]
    exact max_le (hle a (by simp)) (ih fun x hx => hle x (by simp [hx]))

theorem list_foldr_max_eq (l : List ℝ) (m : ℝ) (h0 : 0 ≤ m)
    (hmem : m ∈ l) (hle : ∀ x ∈ l, x ≤ m) : l.foldr max 0 = m := by
  induction l with
  | nil => cases hmem
  | cons a t ih =>
    simp only [List.foldr_cons]
    rcases List.mem_cons.mp hmem with h | h
    · rw [← h]
      exact max_eq_left (list_foldr_max_le t m h0 fun x hx => hle x (by simp [hx]))
    · rw [ih h (fun x hx => hle x (by simp [hx]))]
      exact max_eq_right (hle a (by simp))

theorem maxNormW_cons (a : WEntry) (t : List WEntry) :
    maxNormW (a :: t) =
      if 0 < a.cvol then max (Complex.abs a.val) (maxNormW t) else maxNormW t := rfl

theorem maxNormW_eq_filter (l : List WEntry) :
    maxNormW l = maxNorm ((l.filter fun e => decide (0 < e.cvol)).map WEntry.val) := by
  induction l with
  | nil => simp [maxNormW, maxNorm]
  | cons a t ih =>
    rw [maxNormW_cons, List.filter_cons]
    by_cases h : 0 < a.cvol
    · rw [if_pos h, if_pos (by simpa using h), List.map_cons]
      unfold maxNorm
      rw [List.map_cons, List.foldr_cons]
      rw [ih]
      rfl
    · rw [if_neg h, if_neg (by simpa using h)]
      exact ih

/-- Claim C1: the control-volume weighted max norm is the maximum of the
complex magnitudes taken only over the entries whose control volume is
strictly positive, and an entry with a zero control volume contributes
nothing: inserting an arbitrarily large outlier value at a location whose
control volume is zero leaves the weighted max norm exactly the same as
the field without that location. -/
theorem maxNorm_control_volume_exclusion :
    ∀ (l l1 l2 : List WEntry) (v : ℂ),
      maxNormW l =
        maxNorm ((l.filter fun e => decide (0 < e.cvol)).map WEntry.val) ∧
      maxNormW (l1 ++ ⟨v, 0⟩ :: l2) = maxNormW (l1 ++ l2) := by
  intro l l1 l2 v
  refine ⟨maxNormW_eq_filter l, ?_⟩
  induction l1 with
  | nil =>
    rw [List.nil_append, List.nil_append, maxNormW_cons]
    rw [if_neg (lt_irrefl 0)]
  | cons a t ih =>
    rw [List.cons_append, List.cons_append, maxNormW_cons, maxNormW_cons, ih]

/-- Claim C2: for all complex fields A and B and every control volume,
dot(A, B, cvol) equals the complex conjugate of dot(B, A, cvol), where
dot sums A times the conjugate of B times the control volume; the two
argument orders give conjugate results. -/
theorem dot_conjugate_symmetry :
    ∀ l : List DotEntry, dotW l = (starRingEnd ℂ) (dotW (l.map DotEntry.swap)) := by
  intro l
  induction l with
  | nil => simp [dotW]
  | cons e t ih =>
    simp only [dotW, List.map_cons, List.sum_cons, map_add] at ih ⊢
    rw [ih]
    congr 1
    simp only [DotEntry.swap, map_mul, Complex.conj_conj, Complex.conj_ofReal]
    ring

/-- Claim C3: RMSNorm and weightedRMSNorm, called with a control volume
whose entries sum to zero, or without a control volume over a region with
zero entries, fail with the DivisionByZero error before producing any
result: the modelled operations return the error value and no computed
quotient. -/
theorem rmsNorm_zero_weight_division_by_zero :
    ∀ (lw : List WEntry) (lc : List ℂ) (lg : List WgtEntry) (lp : List (ℂ × ℂ)),
      (sumControlVolumes lw = 0 →
        RMSNormW lw = Except.error NormError.divisionByZero) ∧
      (lc = [] → RMSNorm lc = Except.error NormError.divisionByZero) ∧
      ((lg.map WgtEntry.cvol).sum = 0 →
        weightedRMSNormW lg = Except.error NormError.divisionByZero) ∧
      (lp = [] → weightedRMSNorm lp = Except.error NormError.divisionByZero) := by
  intro lw lc lg lp
  refine ⟨fun h => ?_, fun h => ?_, fun h => ?_, fun h => ?_⟩
  · rw [RMSNormW, if_pos h]
  · rw [RMSNorm, if_pos (by simp [h, numberOfEntries])]
  · rw [weightedRMSNormW, if_pos h]
  · rw [weightedRMSNorm, if_pos (by simp [h])]

/-- Claim C6: weightedL2Norm without a control volume returns the square
root of the sum over every entry of (data times weight) times the
conjugate of (data times weight), with no control-volume factor; with a
control volume the same sum carries the additional factor cvol inside the
sum. -/
theorem weightedL2Norm_control_volume_forms :
    ∀ l : List WgtEntry,
      weightedL2Norm (l.map fun e => (e.val, e.wgt)) =
        Real.sqrt ((l.map fun e =>
          ((e.val * e.wgt) * (starRingEnd ℂ) (e.val * e.wgt)).re).sum) ∧
      weightedL2NormW l =
        Real.sqrt ((l.map fun e =>
          ((e.val * e.wgt) * (starRingEnd ℂ) (e.val * e.wgt)).re * e.cvol).sum) := by
  intro l
  constructor
  · rw [weightedL2Norm, List.map_map]
    congr 1
    refine congrArg List.sum (List.map_congr_left fun e he => ?_)
    rw [Complex.mul_conj, Complex.ofReal_re]
    rfl
  · rw [weightedL2NormW]
    congr 1
    refine congrArg List.sum (List.map_congr_left fun e he => ?_)
    rw [Complex.mul_conj, Complex.ofReal_re]

theorem intRange_eq_nil (lo hi : ℤ) (h : hi < lo) : intRange lo hi = [] := by
  unfold intRange
  rw [Int.toNat_of_nonpos (by omega)]
  rfl

theorem Box2.cells_eq_nil (b : Box2) (h : b.isEmpty = true) : b.cells = [] := by
  unfold Box2.isEmpty at h
  rw [Bool.or_eq_true, decide_eq_true_eq, decide_eq_true_eq] at h
  unfold Box2.cells
  rcases h with h | h
  · rw [intRange_eq_nil _ _ h]
    rfl
  · rw [intRange_eq_nil _ _ h]
    simp

/-- Claim C7: when the restriction box intersected with the directional
storage box is empty, every sum-type reduction (numberOfEntries,
sumControlVolumes, L1Norm, L2Norm, weightedL2Norm, dot, integral) returns
0, and maxNorm returns 0 as a defined no-contribution value. -/
theorem empty_intersection_reductions :
    ∀ (restrict storage : Box2) (f : ℤ × ℤ → WEntry) (g : ℤ × ℤ → DotEntry)
      (w : ℤ × ℤ → WgtEntry),
      (restrict.inter storage).isEmpty = true →
        numberOfEntries (((restrict.inter storage).cells.map f).map WEntry.val) = 0 ∧
        sumControlVolumes ((restrict.inter storage).cells.map f) = 0 ∧
        L1Norm (((restrict.inter storage).cells.map f).map WEntry.val) = 0 ∧
        L1NormW ((restrict.inter storage).cells.map f) = 0 ∧
        L2Norm (((restrict.inter storage).cells.map f).map WEntry.val) = 0 ∧
        L2NormW ((restrict.inter storage).cells.map f) = 0 ∧
        weightedL2NormW ((restrict.inter storage).cells.map w) = 0 ∧
        dotW ((restrict.inter storage).cells.map g) = 0 ∧
        integral ((restrict.inter storage).cells.map f) = 0 ∧
        maxNorm (((restrict.inter storage).cells.map f).map WEntry.val) = 0 ∧
        maxNormW ((restrict.inter storage).cells.map f) = 0 := by
  intro restrict storage f g w h
  rw [Box2.cells_eq_nil _ h]
  refine ⟨rfl, rfl, rfl, rfl, ?_, ?_, ?_, rfl, rfl, rfl, rfl⟩ <;>
    simp [L2Norm, L2NormW, weightedL2NormW]

theorem empty_intersection_reductions_witness :
    ((emptyBoxA.inter emptyBoxB).isEmpty = true) ∧
      (numberOfEntries (((emptyBoxA.inter emptyBoxB).cells.map wconst).map
          WEntry.val) = 0 ∧
        sumControlVolumes ((emptyBoxA.inter emptyBoxB).cells.map wconst) = 0 ∧
        L1Norm (((emptyBoxA.inter emptyBoxB).cells.map wconst).map
          WEntry.val) = 0 ∧
        L1NormW ((emptyBoxA.inter emptyBoxB).cells.map wconst) = 0 ∧
        L2Norm (((emptyBoxA.inter emptyBoxB).cells.map wconst).map
          WEntry.val) = 0 ∧
        L2NormW ((emptyBoxA.inter emptyBoxB).cells.map wconst) = 0 ∧
        weightedL2NormW ((emptyBoxA.inter emptyBoxB).cells.map gconst) = 0 ∧
        dotW ((emptyBoxA.inter emptyBoxB).cells.map dconst) = 0 ∧
        integral ((emptyBoxA.inter emptyBoxB).cells.map wconst) = 0 ∧
        maxNorm (((emptyBoxA.inter emptyBoxB).cells.map wconst).map
          WEntry.val) = 0 ∧
        maxNormW ((emptyBoxA.inter emptyBoxB).cells.map wconst) = 0) :=
  ⟨by decide,
    empty_intersection_reductions emptyBoxA emptyBoxB wconst dconst gconst
      (by decide)⟩

/-- Claim C8: every operation combining a data field with a
control-volume field (sumControlVolumes, L1Norm, L2Norm, weightedL2Norm,
maxNorm, dot, integral) requires that the direction vector of the data
equals the componentwise minimum of the two direction vectors; a
violation is diagnosed as the fatal DirectionVectorMismatch error and no
partial result is produced. -/
theorem direction_vector_precondition_guard :
    ∀ (dvDat dvCv : List ℤ) (lw : List WEntry) (ld : List DotEntry)
      (lg : List WgtEntry),
      dirVecOk dvDat dvCv = false →
        sumControlVolumesOp dvDat dvCv lw =
          Except.error NormError.directionVectorMismatch ∧
        L1NormOp dvDat dvCv lw = Except.error NormError.directionVectorMismatch ∧
        L2NormOp dvDat dvCv lw = Except.error NormError.directionVectorMismatch ∧
        weightedL2NormOp dvDat dvCv lg =
          Except.error NormError.directionVectorMismatch ∧
        maxNormOp dvDat dvCv lw = Except.error NormError.directionVectorMismatch ∧
        dotOp dvDat dvCv ld = Except.error NormError.directionVectorMismatch ∧
        integralOp dvDat dvCv lw = Except.error NormError.directionVectorMismatch := by
  intro dvDat dvCv lw ld lg h
  refine ⟨?_, ?_, ?_, ?_, ?_, ?_, ?_⟩ <;>
    simp [sumControlVolumesOp, L1NormOp, L2NormOp, weightedL2NormOp, maxNormOp,
      dotOp, integralOp, guardedOp, h]

theorem direction_vector_precondition_guard_witness :
    (dirVecOk [1, 0] [0, 1] = false) ∧
      (sumControlVolumesOp [1, 0] [0, 1] [] =
          Except.error NormError.directionVectorMismatch ∧
        L1NormOp [1, 0] [0, 1] [] = Except.error NormError.directionVectorMismatch ∧
        L2NormOp [1, 0] [0, 1] [] = Except.error NormError.directionVectorMismatch ∧
        weightedL2NormOp [1, 0] [0, 1] [] =
          Except.error NormError.directionVectorMismatch ∧
        maxNormOp [1, 0] [0, 1] [] = Except.error NormError.directionVectorMismatch ∧
        dotOp [1, 0] [0, 1] [] = Except.error NormError.directionVectorMismatch ∧
        integralOp [1, 0] [0, 1] [] =
          Except.error NormError.directionVectorMismatch) :=
  ⟨by decide, direction_vector_precondition_guard [1, 0] [0, 1] [] [] [] (by decide)⟩

/-- Claim C9: in the SPMD model of a public hierarchy reduction call,
every process issues exactly one blocking collective reduction and
returns the identical combined scalar, for the sum reductions and for the
max reduction; a process owning zero patches contributes the identity
element (0 for sums, the no-contribution value 0 for max), leaves the
combined value unchanged, and still takes part in the collective. -/
theorem hierarchy_reduction_spmd_collective :
    ∀ procs : List (List ℝ),
      hierarchySumRun procs =
        List.replicate procs.length ⟨1, globalSumReduce procs⟩ ∧
      hierarchyMaxRun procs =
        List.replicate procs.length ⟨1, globalMaxReduce procs⟩ ∧
      localPartialSum [] = 0 ∧
      localPartialMax [] = 0 ∧
      globalSumReduce ([] :: procs) = globalSumReduce procs ∧
      globalMaxReduce ([] :: procs) = globalMaxReduce procs := by
  intro procs
  have hcount : ∀ owned : List ℝ,
      (processEvents owned).count ReduceEvent.collectiveReduce = 1 := by
    intro owned
    unfold processEvents
    rw [List.count_append]
    have : (owned.map fun _ => ReduceEvent.visitPatch).count
        ReduceEvent.collectiveReduce = 0 := by
      rw [List.count_eq_zero]
      intro hmem
      rcases List.mem_map.mp hmem with ⟨x, hx, hx2⟩
      exact ReduceEvent.noConfusion hx2
    rw [this]
    rfl
  refine ⟨?_, ?_, rfl, rfl, ?_, ?_⟩
  · unfold hierarchySumRun
    calc procs.map (fun owned =>
          (⟨(processEvents owned).count ReduceEvent.collectiveReduce,
            globalSumReduce procs⟩ : ProcResult))
        = procs.map (fun _ => (⟨1, globalSumReduce procs⟩ : ProcResult)) :=
          List.map_congr_left fun owned _ => by rw [hcount owned]
      _ = List.replicate procs.length ⟨1, globalSumReduce procs⟩ :=
          List.map_const procs _
  · unfold hierarchyMaxRun
    calc procs.map (fun owned =>
          (⟨(processEvents owned).count ReduceEvent.collectiveReduce,
            globalMaxReduce procs⟩ : ProcResult))
        = procs.map (fun _ => (⟨1, globalMaxReduce procs⟩ : ProcResult)) :=
          List.map_congr_left fun owned _ => by rw [hcount owned]
      _ = List.replicate procs.length ⟨1, globalMaxReduce procs⟩ :=
          List.map_const procs _
  · unfold globalSumReduce
    rw [List.map_cons, List.sum_cons]
    show localPartialSum [] + _ = _
    rw [show localPartialSum [] = 0 from rfl, zero_add]
  · unfold globalMaxReduce
    rw [List.map_cons, List.foldr_cons]
    show max (localPartialMax []) _ = _
    rw [show localPartialMax [] = 0 from rfl]
    exact max_eq_right (list_foldr_max_nonneg _)

/-- Claim C10: a weighted operation accepts the control volume exactly
when its depth is 1 or equals the depth of the data, and with a depth-1
control volume its single component 0 weights every component of the data
at each location. -/
theorem control_volume_depth_rule :
    ∀ (locs : List ℤ) (dataDepth : ℕ) (dval : ℤ → ℕ → ℂ) (cv : DeepField ℝ)
      (cvv : ℤ → ℕ → ℝ),
      ((depthWeightedL1 locs ⟨dataDepth, dval⟩ cv ≠
          Except.error NormError.depthMismatch) ↔
        (cv.depth = 1 ∨ cv.depth = dataDepth)) ∧
      depthWeightedL1 locs ⟨dataDepth, dval⟩ ⟨1, cvv⟩ =
        Except.ok ((locs.map fun loc =>
          ((List.range dataDepth).map fun k =>
            Complex.abs (dval loc k) * cvv loc 0).sum).sum) := by
  intro locs dataDepth dval cv cvv
  constructor
  · unfold depthWeightedL1
    by_cases h : cvolDepthOk cv.depth dataDepth = true
    · rw [if_pos h]
      unfold cvolDepthOk at h
      rw [Bool.or_eq_true, beq_iff_eq, beq_iff_eq] at h
      simp [h]
    · rw [if_neg h]
      unfold cvolDepthOk at h
      rw [Bool.or_eq_true, beq_iff_eq, beq_iff_eq] at h
      simp [h]
  · unfold depthWeightedL1
    rw [if_pos (by rfl)]
    simp [cvolComponent]

theorem list_sum_map_intCast (l : List ℤ) :
    (l.map fun n : ℤ => (n : ℝ)).sum = ((l.sum : ℤ) : ℝ) := by
  induction l with
  | nil => simp
  | cons a t ih =>
    rw [List.map_cons, List.sum_cons, List.sum_cons, ih]
    push_cast
    ring

theorem list_sum_map_mul_left {α : Type} (l : List α) (f : α → ℝ) (c : ℝ) :
    (l.map fun a => c * f a).sum = c * (l.map f).sum := by
  induction l with
  | nil => simp
  | cons a t ih =>
    rw [List.map_cons, List.sum_cons, List.map_cons, List.sum_cons, ih, mul_add]

theorem sqrt_twentyfive : Real.sqrt 25 = 5 := by
  rw [show (25 : ℝ) = 5 ^ 2 by norm_num, Real.sqrt_sq (by norm_num : (0:ℝ) ≤ 5)]

theorem abs_toC (e : QEntry) :
    Complex.abs e.toC = Real.sqrt ((magSq e : ℝ)) := by
  rw [Complex.abs_apply]
  congr 1
  rw [QEntry.toC, Complex.normSq_mk, magSq]
  push_cast
  ring

theorem allEntries_eq :
    allEntries =
      (entC0X ++ entC0Y) ++
        ((entC1X ++ entC1Y) ++ ((entF0X ++ entF0Y) ++ (entF1X ++ entF1Y))) := rfl

set_option maxRecDepth 40000 in
theorem allEntries_cv_sum : (allEntries.map QEntry.cv).sum = 8000 := by
  rw [allEntries_eq]
  simp only [List.map_append, List.sum_append]
  rw [show (entC0X.map QEntry.cv).sum = 2000 from by decide,
    show (entC0Y.map QEntry.cv).sum = 1920 from by decide,
    show (entC1X.map QEntry.cv).sum = 800 from by decide,
    show (entC1Y.map QEntry.cv).sum = 1120 from by decide,
    show (entF0X.map QEntry.cv).sum = 480 from by decide,
    show (entF0Y.map QEntry.cv).sum = 440 from by decide,
    show (entF1X.map QEntry.cv).sum = 720 from by decide,
    show (entF1Y.map QEntry.cv).sum = 520 from by decide]
  norm_num

set_option maxRecDepth 40000 in
theorem allEntries_count25 :
    (allEntries.countP fun e => magSq e == 25) = 221 := by
  rw [allEntries_eq]
  simp only [List.countP_append]
  rw [show entC0X.countP (fun e => magSq e == 25) = 40 from by decide,
    show entC0Y.countP (fun e => magSq e == 25) = 32 from by decide,
    show entC1X.countP (fun e => magSq e == 25) = 30 from by decide,
    show entC1Y.countP (fun e => magSq e == 25) = 21 from by decide,
    show entF0X.countP (fun e => magSq e == 25) = 20 from by decide,
    show entF0Y.countP (fun e => magSq e == 25) = 20 from by decide,
    show entF1X.countP (fun e => magSq e == 25) = 30 from by decide,
    show entF1Y.countP (fun e => magSq e == 25) = 28 from by decide]

set_option maxRecDepth 40000 in
theorem allEntries_count12500 :
    (allEntries.countP fun e => magSq e == 12500) = 1 := by
  rw [allEntries_eq]
  simp only [List.countP_append]
  rw [show entC0X.countP (fun e => magSq e == 12500) = 0 from by decide,
    show entC0Y.countP (fun e => magSq e == 12500) = 1 from by decide,
    show entC1X.countP (fun e => magSq e == 12500) = 0 from by decide,
    show entC1Y.countP (fun e => magSq e == 12500) = 0 from by decide,
    show entF0X.countP (fun e => magSq e == 12500) = 0 from by decide,
    show entF0Y.countP (fun e => magSq e == 12500) = 0 from by decide,
    show entF1X.countP (fun e => magSq e == 12500) = 0 from by decide,
    show entF1Y.countP (fun e => magSq e == 12500) = 0 from by decide]

set_option maxRecDepth 40000 in
theorem allEntries_count1000400 :
    (allEntries.countP fun e => magSq e == 1000400) = 1 := by
  rw [allEntries_eq]
  simp only [List.countP_append]
  rw [show entC0X.countP (fun e => magSq e == 1000400) = 0 from by decide,
    show entC0Y.countP (fun e => magSq e == 1000400) = 0 from by decide,
    show entC1X.countP (fun e => magSq e == 1000400) = 0 from by decide,
    show entC1Y.countP (fun e => magSq e == 1000400) = 1 from by decide,
    show entF0X.countP (fun e => magSq e == 1000400) = 0 from by decide,
    show entF0Y.countP (fun e => magSq e == 1000400) = 0 from by decide,
    show entF1X.countP (fun e => magSq e == 1000400) = 0 from by decide,
    show entF1Y.countP (fun e => magSq e == 1000400) = 0 from by decide]

set_option maxRecDepth 40000 in
theorem allEntries_small_or_zero :
    ∀ e ∈ allEntries, magSq e = 25 ∨ e.cv = 0 := by
  rw [allEntries_eq]
  simp only [List.forall_mem_append]
  exact ⟨⟨by decide, by decide⟩, ⟨by decide, by decide⟩, ⟨by decide, by decide⟩,
    by decide, by decide⟩

set_option maxRecDepth 40000 in
theorem allEntries_classes :
    ∀ e ∈ allEntries, magSq e = 25 ∨ magSq e = 12500 ∨ magSq e = 1000400 := by
  rw [allEntries_eq]
  simp only [List.forall_mem_append]
  exact ⟨⟨by decide, by decide⟩, ⟨by decide, by decide⟩, ⟨by decide, by decide⟩,
    by decide, by decide⟩

set_option maxRecDepth 40000 in
theorem allEntries_magSq_le :
    ∀ e ∈ allEntries, magSq e ≤ 1000400 := by
  rw [allEntries_eq]
  simp only [List.forall_mem_append]
  exact ⟨⟨by decide, by decide⟩, ⟨by decide, by decide⟩, ⟨by decide, by decide⟩,
    by decide, by decide⟩

set_option maxRecDepth 40000 in
theorem outlier_mem : (⟨-1000, 20, 0⟩ : QEntry) ∈ allEntries := by
  rw [allEntries_eq]
  simp only [List.mem_append]
  exact Or.inr (Or.inl (Or.inr (by decide)))

set_option maxRecDepth 40000 in
theorem coarse_level_count : levelEntryCount [coarse0, coarse1] = 115 := by
  decide

set_option maxRecDepth 40000 in
theorem fine_level_count : levelEntryCount [fine0, fine1] = 94 := by
  decide

theorem scenario_cvol_sum :
    (allEntries.map fun e => ((e.cv : ℝ) / 8000)).sum = 1 := by
  have h1 : (allEntries.map fun e => ((e.cv : ℝ) / 8000)) =
      (allEntries.map fun e => (1 / 8000 : ℝ) * ((e.cv : ℤ) : ℝ)) :=
    List.map_congr_left fun e _ => by ring
  rw [h1, list_sum_map_mul_left]
  have h2 : (allEntries.map fun e => ((e.cv : ℤ) : ℝ)) =
      ((allEntries.map QEntry.cv).map fun n : ℤ => (n : ℝ)) := by
    rw [List.map_map]
    rfl
  rw [h2, list_sum_map_intCast, allEntries_cv_sum]
  norm_num

theorem sum_sqrt_classes {α : Type} (l : List α) (m : α → ℤ)
    (h : ∀ a ∈ l, m a = 25 ∨ m a = 12500 ∨ m a = 1000400) :
    (l.map fun a => Real.sqrt ((m a : ℝ))).sum =
      5 * (l.countP fun a => m a == 25) +
        Real.sqrt 12500 * (l.countP fun a => m a == 12500) +
        Real.sqrt 1000400 * (l.countP fun a => m a == 1000400) := by
  induction l with
  | nil => simp
  | cons a t ih =>
    have ha := h a (List.mem_cons_self a t)
    have ih2 := ih fun x hx => h x (List.mem_cons_of_mem a hx)
    rw [List.map_cons, List.sum_cons, ih2, List.countP_cons, List.countP_cons,
      List.countP_cons]
    rcases ha with h1 | h1 | h1 <;> rw [h1]
    · simp only [show ((25:ℤ) == 25) = true from rfl,
        show ((25:ℤ) == 12500) = false from rfl,
        show ((25:ℤ) == 1000400) = false from rfl, if_true, if_false]
      push_cast
      rw [sqrt_twentyfive]
      ring
    · simp only [show ((12500:ℤ) == 25) = false from rfl,
        show ((12500:ℤ) == 12500) = true from rfl,
        show ((12500:ℤ) == 1000400) = false from rfl, if_true, if_false]
      push_cast
      ring
    · simp only [show ((1000400:ℤ) == 25) = false from rfl,
        show ((1000400:ℤ) == 12500) = false from rfl,
        show ((1000400:ℤ) == 1000400) = true from rfl, if_true, if_false]
      push_cast
      ring

theorem scenario_l1_noweight_closed :
    scenarioL1NoWeight = 1105 + Real.sqrt 12500 + Real.sqrt 1000400 := by
  unfold scenarioL1NoWeight L1Norm
  rw [List.map_map]
  rw [show (allEntries.map (Complex.abs ∘ QEntry.toC)) =
      (allEntries.map fun e => Real.sqrt ((magSq e : ℝ))) from
    List.map_congr_left fun e _ => abs_toC e]
  rw [sum_sqrt_classes allEntries magSq allEntries_classes]
  rw [allEntries_count25, allEntries_count12500, allEntries_count1000400]
  push_cast
  ring

theorem scenario_l1_weighted : scenarioL1Weighted = 5 := by
  unfold scenarioL1Weighted L1NormW
  rw [List.map_map]
  have hpt : ∀ e ∈ allEntries,
      ((fun e => Complex.abs e.val * e.cvol) ∘ QEntry.toW) e =
        5 * ((e.cv : ℝ) / 8000) := by
    intro e he
    show Complex.abs e.toC * ((e.cv : ℝ) / 8000) = 5 * ((e.cv : ℝ) / 8000)
    rcases allEntries_small_or_zero e he with h1 | h1
    · rw [abs_toC, h1, show (((25:ℤ)):ℝ) = 25 by norm_num, sqrt_twentyfive]
    · rw [h1]
      norm_num
  rw [List.map_congr_left hpt, list_sum_map_mul_left, scenario_cvol_sum, mul_one]

theorem scenario_max_noweight : scenarioMaxNoWeight = Real.sqrt 1000400 := by
  unfold scenarioMaxNoWeight maxNorm
  rw [List.map_map]
  rw [show (allEntries.map (Complex.abs ∘ QEntry.toC)) =
      (allEntries.map fun e => Real.sqrt ((magSq e : ℝ))) from
    List.map_congr_left fun e _ => abs_toC e]
  apply list_foldr_max_eq
  · exact Real.sqrt_nonneg _
  · refine List.mem_map.mpr ⟨⟨-1000, 20, 0⟩, outlier_mem, ?_⟩
    norm_num [magSq]
  · intro x hx
    rcases List.mem_map.mp hx with ⟨e, he, h2⟩
    rw [← h2]
    apply Real.sqrt_le_sqrt
    exact_mod_cast allEntries_magSq_le e he

theorem sqrt12500_bounds :
    (111.8033988 : ℝ) < Real.sqrt 12500 ∧ Real.sqrt 12500 < 111.8033989 :=
  ⟨(Real.lt_sqrt (by norm_num)).mpr (by norm_num),
    (Real.sqrt_lt' (by norm_num)).mpr (by norm_num)⟩

theorem sqrt1000400_bounds :
    (1000.19998 : ℝ) < Real.sqrt 1000400 ∧ Real.sqrt 1000400 < 1000.1999801 :=
  ⟨(Real.lt_sqrt (by norm_num)).mpr (by norm_num),
    (Real.sqrt_lt' (by norm_num)).mpr (by norm_num)⟩

/-- Claim C4: in the two-dimensional two-level edge-centered scenario,
the L1 norm without a control volume is exactly 1105 plus the square
roots of 12500 and of 1000400, which agrees with the expected test value
2217.003379 to within 1/100000; the L1 norm with the control-volume
weighting is exactly 5; and the max norm without weighting is exactly the
square root of 1000400, which agrees with the expected test value
1000.19998 to within 1/100000. -/
theorem edge_scenario_norm_values :
    scenarioL1NoWeight = 1105 + Real.sqrt 12500 + Real.sqrt 1000400 ∧
    |scenarioL1NoWeight - 2217.003379| < 1 / 100000 ∧
    scenarioL1Weighted = 5 ∧
    scenarioMaxNoWeight = Real.sqrt 1000400 ∧
    |scenarioMaxNoWeight - 1000.19998| < 1 / 100000 := by
  refine ⟨scenario_l1_noweight_closed, ?_, scenario_l1_weighted,
    scenario_max_noweight, ?_⟩
  · rw [scenario_l1_noweight_closed, abs_lt]
    have h1 := sqrt12500_bounds
    have h2 := sqrt1000400_bounds
    constructor <;> nlinarith [h1.1, h1.2, h2.1, h2.2]
  · rw [scenario_max_noweight, abs_lt]
    have h2 := sqrt1000400_bounds
    constructor <;> nlinarith [h2.1, h2.2]

/-- Claim C5: in the two-dimensional two-level edge-centered scenario,
numberOfEntries over the whole hierarchy is exactly 209, and the sum of
the control volumes over the whole hierarchy is exactly 1. -/
theorem edge_scenario_entry_counts :
    scenarioNumberOfEntries = 209 ∧ scenarioSumCvol = 1 := by
  constructor
  · unfold scenarioNumberOfEntries
    rw [coarse_level_count, fine_level_count]
  · unfold scenarioSumCvol sumControlVolumes
    rw [List.map_map]
    exact scenario_cvol_sum
